import Mathlib

/-!
Shallow embedding of the core pipeline of `src/model/bns_model.py`
(repository `merxv/ndvi-app`): historical-yield normalization
(`load_bns_long_csv`, lines 14-45), lag/rolling feature derivation and the
left join back onto caller rows (`attach_lags_for_prediction`, lines 80-115),
and the NDVI/temperature adjustment (`apply_mvp_adjustment`, lines 118-144).

Conventions of the embedding:
* a pandas cell that may be NaN is `Option ℚ` (`none` = NaN / missing);
* numeric values are `ℚ` (the claims under study are about exact arithmetic
  identities, not floating-point rounding);
* `pd.to_numeric(..., errors="coerce")` is modelled by taking the cell
  directly as `Option ℚ` / `Option Int` (parsed value, or `none` when the
  raw cell is missing or unparseable);
* dataframes are lists of typed rows (schema/column-presence checks that the
  claims do not touch are modelled away by the typing);
* `sort_values(["district","year"])` with several keys is pandas' stable
  lexsort; it is modelled by `List.insertionSort` with the lexicographic
  order, which is likewise stable (equal keys keep their input order).
-/

namespace NdviApp

/-- Model of Python `str.strip()` (pandas `Series.str.strip()`): remove
leading and trailing whitespace characters from a string's character list. -/
def stripChars (l : List Char) : List Char :=
  ((l.dropWhile Char.isWhitespace).reverse.dropWhile Char.isWhitespace).reverse

/-- String-level wrapper for `stripChars`. -/
def pyStrip (s : String) : String := ⟨stripChars s.data⟩

/-- Python's string comparison (used by `sort_values` on an object column):
lexicographic on code points.  Defined structurally on the character lists
so that it evaluates by kernel reduction. -/
def strLtB : List Char → List Char → Bool
  | _, [] => false
  | [], _ :: _ => true
  | c :: cs, d :: ds =>
      if c.toNat < d.toNat then true
      else if d.toNat < c.toNat then false
      else strLtB cs ds

theorem char_eq_of_toNat_eq {c d : Char} (h : c.toNat = d.toNat) : c = d := by
  rw [← Char.ofNat_toNat c, ← Char.ofNat_toNat d, h]

theorem strLtB_irrefl : ∀ a : List Char, strLtB a a = false
  | [] => rfl
  | c :: cs => by
      simp [strLtB, Nat.lt_irrefl, strLtB_irrefl cs]

theorem strLtB_total : ∀ a b : List Char, strLtB a b = true ∨ a = b ∨ strLtB b a = true
  | [], [] => Or.inr (Or.inl rfl)
  | [], _ :: _ => Or.inl (by simp [strLtB])
  | _ :: _, [] => Or.inr (Or.inr (by simp [strLtB]))
  | c :: cs, d :: ds => by
      rcases Nat.lt_trichotomy c.toNat d.toNat with h | h | h
      · exact Or.inl (by simp [strLtB, h])
      · have hc : c = d := char_eq_of_toNat_eq h
        subst hc
        rcases strLtB_total cs ds with h' | h' | h'
        · exact Or.inl (by simp [strLtB, Nat.lt_irrefl, h'])
        · exact Or.inr (Or.inl (by rw [h']))
        · exact Or.inr (Or.inr (by simp [strLtB, Nat.lt_irrefl, h']))
      · exact Or.inr (Or.inr (by simp [strLtB, h, Nat.lt_asymm h]))

theorem strLtB_trans : ∀ a b c : List Char,
    strLtB a b = true → strLtB b c = true → strLtB a c = true
  | _, b, [] => by intro _ h2; cases b <;> simp [strLtB] at h2
  | [], b, _ :: _ => by intro _ _; simp [strLtB]
  | _ :: _, [], _ => by intro h1 _; simp [strLtB] at h1
  | x :: xs, y :: ys, z :: zs => by
      intro h1 h2
      simp only [strLtB] at h1 h2 ⊢
      rcases Nat.lt_trichotomy x.toNat y.toNat with hxy | hxy | hxy
      · rcases Nat.lt_trichotomy y.toNat z.toNat with hyz | hyz | hyz
        · simp [Nat.lt_trans hxy hyz]
        · simp [hyz ▸ hxy]
        · simp [hyz, Nat.lt_asymm hyz] at h2
      · rcases Nat.lt_trichotomy y.toNat z.toNat with hyz | hyz | hyz
        · simp [hxy ▸ hyz]
        · rw [if_neg (by rw [hxy, hyz]; exact Nat.lt_irrefl _),
              if_neg (by rw [hxy, hyz]; exact Nat.lt_irrefl _)]
          rw [if_neg (hxy ▸ Nat.lt_irrefl _ : ¬x.toNat < y.toNat),
              if_neg (hxy ▸ Nat.lt_irrefl _ : ¬y.toNat < x.toNat)] at h1
          rw [if_neg (hyz ▸ Nat.lt_irrefl _ : ¬y.toNat < z.toNat),
              if_neg (hyz ▸ Nat.lt_irrefl _ : ¬z.toNat < y.toNat)] at h2
          exact strLtB_trans xs ys zs h1 h2
        · simp [hyz, Nat.lt_asymm hyz] at h2
      · simp [hxy, Nat.lt_asymm hxy] at h1

theorem string_data_eq {s t : String} (h : s.data = t.data) : s = t := by
  cases s
  cases t
  exact congrArg String.mk h

/-- Row of the combined working frame of `attach_lags_for_prediction`
(lines 90-98): columns `district`, `year`, `yield_t_ha`; the yield cell is
NaN (`none`) exactly on the appended prediction-query rows (line 92). -/
structure CombRow where
  district : String
  year : Int
  y : Option ℚ
deriving DecidableEq

instance : Inhabited CombRow := ⟨⟨"", 0, none⟩⟩

/-- Lexicographic sort key of `comb.sort_values(["district", "year"])`
(line 100): district (Python string order, i.e. code-point lexicographic)
first, then year. -/
def combLe (a b : CombRow) : Prop :=
  strLtB a.district.data b.district.data = true ∨ (a.district = b.district ∧ a.year ≤ b.year)

instance : DecidableRel combLe := fun a b =>
  inferInstanceAs (Decidable (strLtB a.district.data b.district.data = true ∨
    (a.district = b.district ∧ a.year ≤ b.year)))

instance : IsTotal CombRow combLe where
  total a b := by
    rcases strLtB_total a.district.data b.district.data with h | h | h
    · exact Or.inl (Or.inl h)
    · have hd : a.district = b.district := string_data_eq h
      rcases le_total a.year b.year with hy | hy
      · exact Or.inl (Or.inr ⟨hd, hy⟩)
      · exact Or.inr (Or.inr ⟨hd.symm, hy⟩)
    · exact Or.inr (Or.inl h)

instance : IsTrans CombRow combLe where
  trans a b c hab hbc := by
    rcases hab with h1 | ⟨e1, l1⟩
    · rcases hbc with h2 | ⟨e2, l2⟩
      · exact Or.inl (strLtB_trans _ _ _ h1 h2)
      · exact Or.inl (e2 ▸ h1)
    · rcases hbc with h2 | ⟨e2, l2⟩
      · exact Or.inl (e1 ▸ h2)
      · exact Or.inr ⟨e1.trans e2, l1.trans l2⟩

/-- Row `i` of a sorted frame (total, with the default row out of range). -/
def rowAt (rows : List CombRow) (i : ℕ) : CombRow := rows.getD i default

/-- Yield cells of the rows strictly before position `i` that belong to the
same `district` group as row `i`, in frame order.  This is the prefix of the
group that `groupby("district")[...].shift(k)` reads from. -/
def priorGroup (rows : List CombRow) (i : ℕ) : List (Option ℚ) :=
  ((rows.take i).filter (fun r => r.district == (rowAt rows i).district)).map (fun r => r.y)

/-- Value of `comb.groupby("district")["yield_t_ha"].shift(k)` at row `i`
(lines 102-103 and 106): the yield cell `k` group positions earlier, NaN when
the group has fewer than `k` earlier rows or that cell is itself NaN. -/
def shiftK (rows : List CombRow) (k i : ℕ) : Option ℚ :=
  ((priorGroup rows i).reverse.get? (k - 1)).join

/-- The whole `shift(1)` column (line 106), as a list indexed like the frame. -/
def shiftedCol (rows : List CombRow) : List (Option ℚ) :=
  (List.range rows.length).map (fun i => shiftK rows 1 i)

/-- Value of `.shift(1).rolling(3, min_periods=1).mean()` at row `i`
(lines 104-110).  The `groupby` ends at `shift(1)`; the subsequent
`rolling(3)` runs over the whole shifted column, positionally, with no
grouping, so the window `[i-2, i]` may span several districts.  The mean
skips NaN cells and is NaN when the window holds no known value. -/
def roll3At (rows : List CombRow) (i : ℕ) : Option ℚ :=
  let w := (((shiftedCol rows).take (i + 1)).drop (i + 1 - 3)).filterMap id
  if w.length = 0 then none else some (w.sum / (w.length : ℚ))

/-- Row of the frame after the three feature columns are attached
(lines 102-110), or of the output of `load_bns_long_csv` (lines 36-44),
restricted to the columns the pipeline reads. -/
structure FeatRow where
  district : String
  year : Int
  y : Option ℚ
  lag1 : Option ℚ
  lag2 : Option ℚ
  roll3 : Option ℚ
deriving DecidableEq

/-- Feature computation for row `i` of the sorted frame. -/
def featRow (rows : List CombRow) (i : ℕ) : FeatRow :=
  ⟨(rowAt rows i).district, (rowAt rows i).year, (rowAt rows i).y,
   shiftK rows 1 i, shiftK rows 2 i, roll3At rows i⟩

/-- The frame with its three derived feature columns (lines 102-110). -/
def featRows (rows : List CombRow) : List FeatRow :=
  (List.range rows.length).map (featRow rows)

/-- Row of `bns_hist[["district", "year", "yield_t_ha"]]` (line 90).  By the
`HistoricalRecord` invariant of the loader, historical yields are known, so
the yield carries a plain `ℚ`. -/
structure HistRow where
  district : String
  year : Int
  y : ℚ
deriving DecidableEq

/-- Caller prediction row (`poly_df`): raw `district` (possibly untrimmed),
raw `year` cell (`none` when it fails numeric coercion), and the remaining
caller columns (sensor signals etc.), which the join must carry through. -/
structure QueryRow where
  district : String
  year : Option Int
  extra : List (Option ℚ)
deriving DecidableEq

/-- Normalization applied to a history row inside the combined frame
(lines 95-98): `astype(str).str.strip()` on district; the integer year is
unchanged by numeric coercion. -/
def histToComb (h : HistRow) : CombRow := ⟨pyStrip h.district, h.year, some h.y⟩

/-- Normalization applied to a query row inside the combined frame
(lines 91-98): yield NaN (line 92), district trimmed, and the row dropped
when the year cell fails numeric coercion (line 97). -/
def queryToComb (q : QueryRow) : Option CombRow :=
  q.year.map (fun yr => ⟨pyStrip q.district, yr, none⟩)

/-- The combined frame `comb` after concat, normalization and the dropna
(lines 94-98), in concat order: history block first, then query block. -/
def combOf (hist : List HistRow) (poly : List QueryRow) : List CombRow :=
  hist.map histToComb ++ poly.filterMap queryToComb

/-- Line 100: stable lexicographic sort of the combined frame. -/
def sortedComb (hist : List HistRow) (poly : List QueryRow) : List CombRow :=
  List.insertionSort combLe (combOf hist poly)

/-- Line 113: the rows kept for prediction are exactly those whose
`yield_t_ha` cell is NaN, with their derived feature columns. -/
def predRows (hist : List HistRow) (poly : List QueryRow) : List FeatRow :=
  (featRows (sortedComb hist poly)).filter (fun p => p.y.isNone)

/-- Output row of the final merge: the caller's original row (all its
columns unchanged) followed by the three feature columns. -/
structure OutRow where
  orig : QueryRow
  lag1 : Option ℚ
  lag2 : Option ℚ
  roll3 : Option ℚ
deriving DecidableEq

/-- Join condition of `poly_df.merge(pred_rows, on=["district", "year"],
how="left")` (line 114): the caller's raw key cells are compared against the
derived row's (normalized) key; a NaN year cell matches nothing, since every
derived row carries an integer year. -/
def matchKey (q : QueryRow) (p : FeatRow) : Bool :=
  q.district == p.district && q.year == some p.year

/-- Expansion of one left row under a pandas left merge: every matching
right row in right-frame order, or a single all-NaN-features row when
nothing matches. -/
def mergeOne (preds : List FeatRow) (q : QueryRow) : List OutRow :=
  if (preds.filter (matchKey q)).isEmpty then [⟨q, none, none, none⟩]
  else (preds.filter (matchKey q)).map (fun p => ⟨q, p.lag1, p.lag2, p.roll3⟩)

/-- Line 114: `how="left"` merge, preserving left-frame order. -/
def leftMergeFeat (poly : List QueryRow) (preds : List FeatRow) : List OutRow :=
  poly.flatMap (mergeOne preds)

/-- Lines 80-115 end to end: derive features on history plus query rows and
left-join them back onto the caller's rows. -/
def attach_lags_for_prediction (hist : List HistRow) (poly : List QueryRow) : List OutRow :=
  leftMergeFeat poly (predRows hist poly)

/-- Raw CSV row of the loader, seen through numeric coercion: `district` is
`none` when the cell is missing (NaN), `year` and `yieldC` are `none` when
missing or unparseable (`pd.to_numeric(..., errors="coerce")`, lines 26-27). -/
structure RawRow where
  district : Option String
  year : Option Int
  yieldC : Option ℚ
deriving DecidableEq

/-- Lines 25-32 of `load_bns_long_csv` for one row: `astype(str)` renders a
missing district as the literal string "nan" (so the later
`dropna(subset=["district", ...])` never fires on it), districts are
trimmed, rows with uncoercible year or yield are dropped, and the kept yield
is the raw centners-per-hectare value divided by 10. -/
def loadRow (r : RawRow) : Option CombRow :=
  match r.year, r.yieldC with
  | some yr, some c =>
      some ⟨(match r.district with
             | some s => pyStrip s
             | none => pyStrip "nan"), yr, some (c / 10)⟩
  | _, _ => none

/-- Lines 25-32: normalization of the raw frame, keeping row order. -/
def loadNormalize (input : List RawRow) : List CombRow :=
  input.filterMap loadRow

/-- Line 35: the normalized frame sorted by `["district", "year"]`. -/
def loadSorted (input : List RawRow) : List CombRow :=
  List.insertionSort combLe (loadNormalize input)

/-- Lines 14-45 end to end: normalized, sorted rows with their lag and
rolling-mean feature columns (lines 36-44 are the same computation as
lines 102-110 of `attach_lags_for_prediction`). -/
def load_bns_long_csv (input : List RawRow) : List FeatRow :=
  featRows (loadSorted input)

/-- Input frame of `apply_mvp_adjustment`: the base-prediction column plus
the five optional sensor columns it reads; an absent column is `none`, a
present column is its list of cells. -/
structure AdjFrame where
  base : List (Option ℚ)
  ndviMean : Option (List (Option ℚ))
  airTemp : Option (List (Option ℚ))
  ndviRange : Option (List (Option ℚ))
  ndviMax : Option (List (Option ℚ))
  ndviMin : Option (List (Option ℚ))
deriving DecidableEq

/-- Output frame of `apply_mvp_adjustment` restricted to the columns the
function writes or derives. -/
structure AdjOut where
  base : List (Option ℚ)
  ndviRange : Option (List (Option ℚ))
  adjustment : List ℚ
  final : List (Option ℚ)
deriving DecidableEq

/-- Cell of the derived `ndvi_range` column (line 127): NaN-propagating
subtraction of the coerced `ndvi_max` and `ndvi_min` cells. -/
def rangeCell (a b : Option ℚ) : Option ℚ := a.bind (fun x => b.map (fun v => x - v))

/-- Cell of `ndvi_effect = 0.6 * (ndvi_mean - 0.2)` (line 136), before the
`fillna(0)`: NaN in, NaN out. -/
def vegEffectCell (x : Option ℚ) : Option ℚ := x.map (fun v => 6/10 * (v - 2/10))

/-- Cell of `temp_effect = 0.02 * gee_air_temp_mean` (line 137), before the
`fillna(0)`. -/
def tmpEffectCell (x : Option ℚ) : Option ℚ := x.map (fun v => 2/100 * v)

/-- Pandas `clip(-0.5, 0.5)` (line 140) on a finite value. -/
def clipAdj (x : ℚ) : ℚ := min (max x (-(5/10))) (5/10)

/-- Cell of the adjustment column (line 140):
`(ndvi_effect.fillna(0) + temp_effect.fillna(0)).clip(-0.5, 0.5)`. -/
def adjCell (nd ta : Option ℚ) : ℚ :=
  clipAdj ((vegEffectCell nd).getD 0 + (tmpEffectCell ta).getD 0)

/-- Lines 118-144.  When either sensor column is entirely absent,
`out.get(...)` is `None`, `pd.to_numeric(None, errors="coerce")` is the
scalar NaN, and the `.fillna(0)` on line 140 is an attribute access on a
bare float: the function raises `AttributeError` instead of returning.  With
both columns present the per-cell arithmetic of lines 133-142 runs, and the
`ndvi_range` column is derived on lines 126-127 exactly when it is absent
and both `ndvi_max` and `ndvi_min` are present. -/
def apply_mvp_adjustment (f : AdjFrame) : Except String AdjOut :=
  let rng : Option (List (Option ℚ)) :=
    match f.ndviRange, f.ndviMax, f.ndviMin with
    | some r, _, _ => some r
    | none, some mx, some mn => some (List.zipWith rangeCell mx mn)
    | none, _, _ => none
  match f.ndviMean, f.airTemp with
  | some nd, some ta =>
      Except.ok ⟨f.base, rng,
        List.zipWith adjCell nd ta,
        List.zipWith (fun b a => b.map (fun v => v + a)) f.base (List.zipWith adjCell nd ta)⟩
  | _, _ => Except.error "AttributeError: nan has no attribute fillna"

/-- Column-length agreement of a present column with the base column, as a
pandas DataFrame guarantees for its columns. -/
def colWF (n : ℕ) : Option (List (Option ℚ)) → Prop
  | none => True
  | some c => c.length = n

/-- Well-formedness of an adjustment input frame: the two sensor columns the
arithmetic zips against the base column have the frame's row count. -/
def AdjFrame.WF (f : AdjFrame) : Prop :=
  colWF f.base.length f.ndviMean ∧ colWF f.base.length f.airTemp

/-! Helper lemmas about the embedding. -/

theorem stripChars_eq_rdrop (l : List Char) :
    stripChars l = List.rdropWhile Char.isWhitespace (l.dropWhile Char.isWhitespace) := rfl

theorem stripChars_idem (l : List Char) : stripChars (stripChars l) = stripChars l := by
  have hdw : (stripChars l).dropWhile Char.isWhitespace = stripChars l := by
    rcases Nat.eq_zero_or_pos (stripChars l).length with h0 | hpos
    · rw [List.length_eq_zero] at h0
      rw [h0]
      rfl
    · rw [List.dropWhile_eq_self_iff]
      intro hl
      have hpre : stripChars l <+: l.dropWhile Char.isWhitespace :=
        List.rdropWhile_prefix Char.isWhitespace (l.dropWhile Char.isWhitespace)
      have hlen : 0 < (l.dropWhile Char.isWhitespace).length :=
        lt_of_lt_of_le hpos hpre.length_le
      have hget : (stripChars l).get ⟨0, hl⟩ =
          (l.dropWhile Char.isWhitespace).get ⟨0, hlen⟩ := by
        simpa using hpre.getElem (n := 0) (by simpa using hl)
      rw [hget]
      exact List.dropWhile_get_zero_not Char.isWhitespace l hlen
  calc stripChars (stripChars l)
      = List.rdropWhile Char.isWhitespace ((stripChars l).dropWhile Char.isWhitespace) := rfl
    _ = List.rdropWhile Char.isWhitespace (stripChars l) := by rw [hdw]
    _ = stripChars l :=
        List.rdropWhile_idempotent Char.isWhitespace (l.dropWhile Char.isWhitespace)

theorem pyStrip_idem (s : String) : pyStrip (pyStrip s) = pyStrip s := by
  show (⟨stripChars (String.data ⟨stripChars s.data⟩)⟩ : String) = ⟨stripChars s.data⟩
  exact congrArg String.mk (stripChars_idem s.data)

theorem combOf_district_stripped (hist : List HistRow) (poly : List QueryRow) :
    ∀ r ∈ combOf hist poly, ∃ s, r.district = pyStrip s := by
  intro r hr
  rcases List.mem_append.mp hr with h | h
  · rcases List.mem_map.mp h with ⟨hh, _, rfl⟩
    exact ⟨hh.district, rfl⟩
  · rcases List.mem_filterMap.mp h with ⟨q, _, hq⟩
    cases hyr : q.year with
    | none => rw [queryToComb, hyr] at hq; simp at hq
    | some yr =>
        rw [queryToComb, hyr] at hq
        simp only [Option.map_some', Option.some.injEq] at hq
        rw [← hq]
        exact ⟨q.district, rfl⟩

theorem sortedComb_district_stripped (hist : List HistRow) (poly : List QueryRow) :
    ∀ r ∈ sortedComb hist poly, ∃ s, r.district = pyStrip s := fun r hr =>
  combOf_district_stripped hist poly r
    ((List.perm_insertionSort combLe (combOf hist poly)).mem_iff.mp hr)

theorem rowAt_mem (rows : List CombRow) (i : ℕ) (h : i < rows.length) :
    rowAt rows i ∈ rows := by
  rw [rowAt, List.getD_eq_getElem?_getD, List.getElem?_eq_getElem h]
  simp only [Option.getD_some]
  exact List.getElem_mem h

theorem featRows_district (rows : List CombRow) :
    ∀ p ∈ featRows rows, ∃ r ∈ rows, p.district = r.district := by
  intro p hp
  rcases List.mem_map.mp hp with ⟨i, hi, rfl⟩
  exact ⟨rowAt rows i, rowAt_mem rows i (List.mem_range.mp hi), rfl⟩

theorem predRows_district_stripped (hist : List HistRow) (poly : List QueryRow) :
    ∀ p ∈ predRows hist poly, ∃ s, p.district = pyStrip s := by
  intro p hp
  rcases featRows_district _ p (List.mem_filter.mp hp).1 with ⟨r, hr, he⟩
  rcases sortedComb_district_stripped hist poly r hr with ⟨s, hs⟩
  exact ⟨s, he.trans hs⟩

theorem matchKey_eq (q : QueryRow) (p : FeatRow) (h : matchKey q p = true) :
    q.district = p.district ∧ q.year = some p.year := by
  rw [matchKey, Bool.and_eq_true] at h
  exact ⟨eq_of_beq h.1, eq_of_beq h.2⟩

/-! Claim theorems. -/

/-- C1.  Code behaviour at the failing input: history A has years 2020 (3.0)
and 2021 (4.0); querying the already-historical period (A, 2021) returns
lag1 = 4.0 — the queried period's OWN yield — with lag2 = 3.0 and
roll3 = 7/2, because line 94 concatenates the query row after the history
row for the same period and `shift(1)` then reads it.  The claim requires
lag1 = 3.0, lag2 = null, roll3 = 3.0 (features of position 1 of the distinct
period sequence 2020 < 2021).  The second conjunct is the two-run form:
changing only the queried period's own yield 4.0 ↦ 5.0 changes every
feature emitted for that query row. -/
theorem c1_leakage_on_existing_period :
    attach_lags_for_prediction [⟨"A", 2020, 3⟩, ⟨"A", 2021, 4⟩] [⟨"A", some 2021, []⟩]
      = [⟨⟨"A", some 2021, []⟩, some 4, some 3, some (7/2)⟩] ∧
    attach_lags_for_prediction [⟨"A", 2020, 3⟩, ⟨"A", 2021, 5⟩] [⟨"A", some 2021, []⟩]
      = [⟨⟨"A", some 2021, []⟩, some 5, some 3, some 4⟩] := by
  constructor
  · have hs : sortedComb [⟨"A", 2020, 3⟩, ⟨"A", 2021, 4⟩] [⟨"A", some 2021, []⟩]
        = [⟨"A", 2020, some 3⟩, ⟨"A", 2021, some 4⟩, ⟨"A", 2021, none⟩] := by decide
    rw [attach_lags_for_prediction, predRows, hs]
    simp [leftMergeFeat, mergeOne, matchKey, featRows, featRow, rowAt, shiftK, shiftedCol,
      roll3At, priorGroup, List.range_succ, List.filter_cons]
    norm_num
  · have hs : sortedComb [⟨"A", 2020, 3⟩, ⟨"A", 2021, 5⟩] [⟨"A", some 2021, []⟩]
        = [⟨"A", 2020, some 3⟩, ⟨"A", 2021, some 5⟩, ⟨"A", 2021, none⟩] := by decide
    rw [attach_lags_for_prediction, predRows, hs]
    simp [leftMergeFeat, mergeOne, matchKey, featRows, featRow, rowAt, shiftK, shiftedCol,
      roll3At, priorGroup, List.range_succ, List.filter_cons]
    norm_num

/-- C2.  Code behaviour at the failing input: entity B has one historical
year 2021 (5.0); querying (B, 2022) must give roll3 = mean of B's known
yields among its positions {0} = 5.0 per the claim, but the `rolling(3)` on
line 107 is applied to the whole shifted column, not per group, so the
window also picks up entity A's shifted yield 3.0 and returns
(3.0 + 5.0)/2 = 4.0. -/
theorem c2_roll3_crosses_entity_boundary :
    attach_lags_for_prediction [⟨"A", 2020, 3⟩, ⟨"A", 2021, 4⟩, ⟨"B", 2021, 5⟩]
        [⟨"B", some 2022, []⟩]
      = [⟨⟨"B", some 2022, []⟩, some 5, none, some 4⟩] := by
  have hs : sortedComb [⟨"A", 2020, 3⟩, ⟨"A", 2021, 4⟩, ⟨"B", 2021, 5⟩] [⟨"B", some 2022, []⟩]
      = [⟨"A", 2020, some 3⟩, ⟨"A", 2021, some 4⟩, ⟨"B", 2021, some 5⟩, ⟨"B", 2022, none⟩] := by
    decide
  rw [attach_lags_for_prediction, predRows, hs]
  simp [leftMergeFeat, mergeOne, matchKey, featRows, featRow, rowAt, shiftK, shiftedCol,
    roll3At, priorGroup, List.range_succ, List.filter_cons]
  norm_num

/-- C3.  Code behaviour at the failing input: entity B has no history at
all, yet querying (B, 2022) returns roll3 = 3.0 — entity A's year 2020 yield —
instead of the all-null features the claim requires, again because the
rolling window of line 107 crosses the district-group boundary. -/
theorem c3_no_history_entity_nonnull_roll3 :
    attach_lags_for_prediction [⟨"A", 2020, 3⟩, ⟨"A", 2021, 4⟩] [⟨"B", some 2022, []⟩]
      = [⟨⟨"B", some 2022, []⟩, none, none, some 3⟩] := by
  have hs : sortedComb [⟨"A", 2020, 3⟩, ⟨"A", 2021, 4⟩] [⟨"B", some 2022, []⟩]
      = [⟨"A", 2020, some 3⟩, ⟨"A", 2021, some 4⟩, ⟨"B", 2022, none⟩] := by decide
  rw [attach_lags_for_prediction, predRows, hs]
  simp [leftMergeFeat, mergeOne, matchKey, featRows, featRow, rowAt, shiftK, shiftedCol,
    roll3At, priorGroup, List.range_succ, List.filter_cons]

theorem attach_ws_allnull :
    attach_lags_for_prediction [⟨"A", 2020, 3⟩, ⟨"A", 2021, 4⟩] [⟨" A ", some 2022, []⟩]
      = [⟨⟨" A ", some 2022, []⟩, none, none, none⟩] := by
  have hs : sortedComb [⟨"A", 2020, 3⟩, ⟨"A", 2021, 4⟩] [⟨" A ", some 2022, []⟩]
      = [⟨"A", 2020, some 3⟩, ⟨"A", 2021, some 4⟩, ⟨"A", 2022, none⟩] := by decide
  rw [attach_lags_for_prediction, predRows, hs]
  simp [leftMergeFeat, mergeOne, matchKey, featRows, featRow, rowAt, shiftK, shiftedCol,
    roll3At, priorGroup, List.range_succ, List.filter_cons]

theorem predRows_ws_computed :
    predRows [⟨"A", 2020, 3⟩, ⟨"A", 2021, 4⟩] [⟨" A ", some 2022, []⟩]
      = [⟨"A", 2022, none, some 4, some 3, some (7/2)⟩] := by
  have hs : sortedComb [⟨"A", 2020, 3⟩, ⟨"A", 2021, 4⟩] [⟨" A ", some 2022, []⟩]
      = [⟨"A", 2020, some 3⟩, ⟨"A", 2021, some 4⟩, ⟨"A", 2022, none⟩] := by decide
  rw [predRows, hs]
  simp [featRows, featRow, rowAt, shiftK, shiftedCol, roll3At, priorGroup,
    List.range_succ, List.filter_cons]
  norm_num

/-- C5 counterexample: the caller row with entity_id " A " (whitespace)
queries year 2022 against history for "A"; the derived-feature frame does
contain the features computed for ("A", 2022) (lag1 = 4, lag2 = 3,
roll3 = 7/2), yet the merged output row gets all-null features, because
line 114 joins the caller's raw key against the normalized derived key. -/
theorem c5_counterexample_whitespace_key_unmatched :
    attach_lags_for_prediction [⟨"A", 2020, 3⟩, ⟨"A", 2021, 4⟩] [⟨" A ", some 2022, []⟩]
      = [⟨⟨" A ", some 2022, []⟩, none, none, none⟩] ∧
    predRows [⟨"A", 2020, 3⟩, ⟨"A", 2021, 4⟩] [⟨" A ", some 2022, []⟩]
      = [⟨"A", 2022, none, some 4, some 3, some (7/2)⟩] :=
  ⟨attach_ws_allnull, predRows_ws_computed⟩

/-- C5 (amended).  Join-key normalization is one-sided: every derived
feature row carries a trimmed entity_id, while the caller side of the merge
key is compared raw (line 114 merges on `poly_df`'s original columns).
Hence any output row whose caller entity_id is not already equal to its own
trimmed form matched no derived row and carries all-null features. -/
theorem c5_merge_compares_raw_caller_key (hist : List HistRow) (poly : List QueryRow)
    (r : OutRow) (hr : r ∈ attach_lags_for_prediction hist poly)
    (hraw : pyStrip r.orig.district ≠ r.orig.district) :
    r.lag1 = none ∧ r.lag2 = none ∧ r.roll3 = none := by
  rcases List.mem_flatMap.mp hr with ⟨q, _, hrq⟩
  rw [mergeOne] at hrq
  by_cases hemp : ((predRows hist poly).filter (matchKey q)).isEmpty
  · rw [if_pos hemp, List.mem_singleton] at hrq
    rw [hrq]
    exact ⟨rfl, rfl, rfl⟩
  · rw [if_neg hemp] at hrq
    exfalso
    rcases List.mem_map.mp hrq with ⟨p, hps, hrp⟩
    have hm := List.mem_filter.mp hps
    have hqd : q.district = p.district := (matchKey_eq q p hm.2).1
    rcases predRows_district_stripped hist poly p hm.1 with ⟨s, hsd⟩
    apply hraw
    have horig : r.orig = q := by rw [← hrp]
    rw [horig, hqd, hsd]
    exact pyStrip_idem s

/-- C5 witness: the amended theorem applied at the concrete counterexample
input, with every hypothesis discharged by evaluation. -/
theorem c5_witness :
    (⟨⟨" A ", some 2022, []⟩, none, none, none⟩ : OutRow).lag1 = none ∧
    (⟨⟨" A ", some 2022, []⟩, none, none, none⟩ : OutRow).lag2 = none ∧
    (⟨⟨" A ", some 2022, []⟩, none, none, none⟩ : OutRow).roll3 = none :=
  c5_merge_compares_raw_caller_key [⟨"A", 2020, 3⟩, ⟨"A", 2021, 4⟩]
    [⟨" A ", some 2022, []⟩] _
    (by rw [attach_ws_allnull]; exact List.mem_singleton_self _) (by decide)

/-- C8.  Code behaviour at the failing input: a raw row with a MISSING
district and parseable year/yield survives normalization as the literal
entity_id "nan" (because `astype(str)` on line 25 renders NaN as "nan"
before the `dropna` on line 28 looks at the column), while the claim says
such a row is excluded.  Rows with uncoercible year or yield are indeed
dropped, and a kept yield is the raw value divided by 10. -/
theorem c8_missing_district_not_dropped :
    loadNormalize [⟨none, some 2020, some 30⟩] = [⟨"nan", 2020, some 3⟩] ∧
    loadNormalize [⟨some "A", none, some 30⟩] = [] ∧
    loadNormalize [⟨some "A", some 2020, none⟩] = [] ∧
    loadNormalize [⟨some " B ", some 2021, some 25⟩] = [⟨"B", 2021, some (5/2)⟩] := by
  refine ⟨?_, by decide, by decide, ?_⟩
  · simp [loadNormalize, loadRow, pyStrip, stripChars]
    norm_num
  · simp [loadNormalize, loadRow, pyStrip, stripChars]
    norm_num

theorem filter_matchKey_eq_find (q : QueryRow) :
    ∀ preds : List FeatRow,
      preds.Pairwise (fun p1 p2 => (p1.district, p1.year) ≠ (p2.district, p2.year)) →
      preds.filter (matchKey q) = (preds.find? (matchKey q)).toList
  | [], _ => rfl
  | p :: ps, hk => by
      have hk' := List.pairwise_cons.mp hk
      by_cases hm : matchKey q p = true
      · rw [List.filter_cons_of_pos hm, List.find?_cons_of_pos ps hm]
        have hnil : ps.filter (matchKey q) = [] := by
          rw [List.filter_eq_nil_iff]
          intro b hb hmb
          rcases matchKey_eq q p hm with ⟨hd1, hy1⟩
          rcases matchKey_eq q b hmb with ⟨hd2, hy2⟩
          have hdd : p.district = b.district := hd1.symm.trans hd2
          have hyy : p.year = b.year := Option.some.inj (hy1.symm.trans hy2)
          exact hk'.1 b hb (by rw [hdd, hyy])
        rw [hnil]
        rfl
      · rw [List.filter_cons_of_neg hm, List.find?_cons_of_neg ps hm]
        exact filter_matchKey_eq_find q ps hk'.2

/-- C4 counterexample: two identical caller rows querying (A, 2023) against
a one-row history produce TWO derived-feature rows with the same key, and
the left merge of line 114 then pairs each caller row with both of them:
2 caller rows come back as 4 output rows, so the merge can duplicate rows. -/
theorem c4_counterexample_duplicate_rows :
    (attach_lags_for_prediction [⟨"A", 2020, 3⟩]
        [⟨"A", some 2023, []⟩, ⟨"A", some 2023, []⟩]).length = 4 ∧
    ([(⟨"A", some 2023, []⟩ : QueryRow), ⟨"A", some 2023, []⟩]).length = 2 := by
  constructor
  · have hs : sortedComb [⟨"A", 2020, 3⟩] [⟨"A", some 2023, []⟩, ⟨"A", some 2023, []⟩]
        = [⟨"A", 2020, some 3⟩, ⟨"A", 2023, none⟩, ⟨"A", 2023, none⟩] := by decide
    rw [attach_lags_for_prediction, predRows, hs]
    simp [leftMergeFeat, mergeOne, matchKey, featRows, featRow, rowAt, shiftK, shiftedCol,
      roll3At, priorGroup, List.range_succ, List.filter_cons]
  · rfl

/-- C4 (amended).  The merge of line 114 is a pure structural left join
PROVIDED the derived feature rows carry pairwise-distinct (entity_id,
period) keys: then the output is exactly the caller's row list mapped in
place — same length, same order, each original row embedded unchanged, the
matching feature values attached, and null features where no key matches.
With duplicate derived keys (possible when the caller queries the same key
twice), a caller row is instead repeated once per match. -/
theorem c4_merge_is_left_join_of_unique_keys (poly : List QueryRow) (preds : List FeatRow)
    (hk : preds.Pairwise (fun p1 p2 => (p1.district, p1.year) ≠ (p2.district, p2.year))) :
    leftMergeFeat poly preds = poly.map (fun q =>
      match preds.find? (matchKey q) with
      | some p => ⟨q, p.lag1, p.lag2, p.roll3⟩
      | none => ⟨q, none, none, none⟩) := by
  induction poly with
  | nil => rfl
  | cons q qs ih =>
      have h1 : mergeOne preds q = [(match preds.find? (matchKey q) with
          | some p => (⟨q, p.lag1, p.lag2, p.roll3⟩ : OutRow)
          | none => ⟨q, none, none, none⟩)] := by
        rw [mergeOne, filter_matchKey_eq_find q preds hk]
        cases hf : preds.find? (matchKey q) with
        | none => rfl
        | some p => rfl
      rw [leftMergeFeat, List.flatMap_cons, h1, List.map_cons, List.singleton_append]
      rw [leftMergeFeat] at ih
      rw [ih]

/-- C4 witness: the amended theorem applied to one caller row and one
derived row with a unique key. -/
theorem c4_witness :
    leftMergeFeat [⟨"A", some 2023, []⟩] [⟨"A", 2023, none, some 3, none, some 3⟩]
      = [⟨⟨"A", some 2023, []⟩, some 3, none, some 3⟩] := by
  rw [c4_merge_is_left_join_of_unique_keys [⟨"A", some 2023, []⟩]
    [⟨"A", 2023, none, some 3, none, some 3⟩] (by simp)]
  decide

/-- C9 counterexample: two raw rows with the same (A, 2020) key and
different yields both survive normalization and sorting — the loader never
deduplicates, so the normalized record set can hold two records per key. -/
theorem c9_counterexample_duplicate_key_survives :
    ((loadSorted [⟨some "A", some 2020, some 30⟩, ⟨some "A", some 2020, some 40⟩]).filter
        (fun r => r.district == "A" && r.year == (2020 : Int))).length = 2 := by
  decide

/-- C9 (amended).  The loader performs no deduplication, so "at most one
record per (entity_id, period)" holds exactly when the parsed rows already
have pairwise-distinct keys; under that hypothesis the sorted frame is
strictly ascending in period within every entity. -/
theorem c9_strictly_ascending_of_unique_keys (input : List RawRow)
    (h : ((loadNormalize input).map (fun r => (r.district, r.year))).Nodup) :
    (loadSorted input).Pairwise (fun a b => a.district = b.district → a.year < b.year) := by
  have hperm : List.Perm (loadSorted input) (loadNormalize input) :=
    List.perm_insertionSort combLe (loadNormalize input)
  have hsorted : (loadSorted input).Pairwise combLe :=
    List.sorted_insertionSort combLe (loadNormalize input)
  have hmapperm : List.Perm ((loadSorted input).map (fun r => (r.district, r.year)))
      ((loadNormalize input).map (fun r => (r.district, r.year))) :=
    hperm.map (fun r => (r.district, r.year))
  have hnd : ((loadSorted input).map (fun r => (r.district, r.year))).Nodup :=
    hmapperm.nodup_iff.mpr h
  have hpw : (loadSorted input).Pairwise
      (fun a b => (a.district, a.year) ≠ (b.district, b.year)) :=
    (List.pairwise_map).mp hnd
  refine (hsorted.and hpw).imp fun hab hd => ?_
  rcases hab with ⟨hle, hne⟩
  rcases hle with hlt | ⟨heq, hy⟩
  · exfalso
    rw [hd, strLtB_irrefl] at hlt
    exact Bool.false_ne_true hlt
  · exact lt_of_le_of_ne hy (fun hyy => hne (by rw [hd, hyy]))

/-- C9 witness: the amended theorem at a concrete two-row input with
distinct keys. -/
theorem c9_witness :
    (loadSorted [⟨some "A", some 2021, some 30⟩, ⟨some "A", some 2020, some 40⟩]).Pairwise
      (fun a b => a.district = b.district → a.year < b.year) :=
  c9_strictly_ascending_of_unique_keys
    [⟨some "A", some 2021, some 30⟩, ⟨some "A", some 2020, some 40⟩] (by decide)

theorem zipWith_get?_eq {α β γ : Type} (f : α → β → γ) :
    ∀ (l1 : List α) (l2 : List β) (i : ℕ),
      (List.zipWith f l1 l2).get? i = (l1.get? i).bind (fun a => (l2.get? i).map (f a))
  | [], l2, i => by simp
  | _ :: _, [], i => by simp
  | a :: as, b :: bs, 0 => rfl
  | a :: as, b :: bs, i + 1 => by
      simp only [List.zipWith_cons_cons, List.get?_cons_succ]
      exact zipWith_get?_eq f as bs i

/-- C6 (Claim C6).  For every well-formed input frame whose two sensor
columns are present (possibly with null cells) and every row `i` with a
finite base prediction `b`: the adjustment written for that row equals
`clamp(vegetation_effect + temperature_effect, -0.5, 0.5)` with
`vegetation_effect = 0.6 * (v - 0.2)` when the row's vegetation cell holds
`v` and `0` when it is null, and `temperature_effect = 0.02 * t` when the
temperature cell holds `t` and `0` when it is null; the adjustment always
lies in `[-1/2, 1/2]`; the final prediction is `b + adjustment`; and when
both of the row's signal cells are null the adjustment is `0` and the final
prediction is `b` itself. -/
theorem c6_adjustment_formula (f : AdjFrame) (nd ta : List (Option ℚ)) (out : AdjOut)
    (hwf : f.WF) (hnd : f.ndviMean = some nd) (hta : f.airTemp = some ta)
    (hout : apply_mvp_adjustment f = Except.ok out)
    (i : ℕ) (b : ℚ) (hb : f.base.get? i = some (some b)) :
    ∃ x y : Option ℚ, nd.get? i = some x ∧ ta.get? i = some y ∧
      ∃ a : ℚ, out.adjustment.get? i = some a ∧
        a = min (max ((match x with | some v => 6/10 * (v - 2/10) | none => 0) +
                      (match y with | some t => 2/100 * t | none => 0)) (-(1/2))) (1/2) ∧
        -(1/2) ≤ a ∧ a ≤ 1/2 ∧
        out.final.get? i = some (some (b + a)) ∧
        (x = none → y = none → a = 0 ∧ b + a = b) := by
  have hi : i < f.base.length := by
    rcases Nat.lt_or_ge i f.base.length with h | h
    · exact h
    · rw [List.get?_eq_none.mpr h] at hb
      exact absurd hb (by simp)
  have hnl : nd.length = f.base.length := by
    have h1 := hwf.1
    rw [hnd] at h1
    exact h1
  have htl : ta.length = f.base.length := by
    have h1 := hwf.2
    rw [hta] at h1
    exact h1
  obtain ⟨x, hx⟩ : ∃ x, nd.get? i = some x :=
    ⟨nd.get ⟨i, hnl ▸ hi⟩, List.get?_eq_get (hnl ▸ hi)⟩
  obtain ⟨y, hy⟩ : ∃ y, ta.get? i = some y :=
    ⟨ta.get ⟨i, htl ▸ hi⟩, List.get?_eq_get (htl ▸ hi)⟩
  have hout' : out = ⟨f.base,
      (match f.ndviRange, f.ndviMax, f.ndviMin with
       | some r, _, _ => some r
       | none, some mx, some mn => some (List.zipWith rangeCell mx mn)
       | none, _, _ => none),
      List.zipWith adjCell nd ta,
      List.zipWith (fun b a => b.map (fun v => v + a)) f.base (List.zipWith adjCell nd ta)⟩ := by
    rw [apply_mvp_adjustment, hnd, hta] at hout
    exact (Except.ok.inj hout).symm
  refine ⟨x, y, hx, hy, adjCell x y, ?_, ?_, ?_, ?_, ?_, ?_⟩
  · rw [hout', zipWith_get?_eq, hx, hy]
    rfl
  · cases x <;> cases y <;> norm_num [adjCell, clipAdj, vegEffectCell, tmpEffectCell]
  · have h1 : -(1/2 : ℚ) ≤ -(5/10 : ℚ) := by norm_num
    exact le_trans h1 (le_min (le_max_right _ _) (by norm_num))
  · have h1 : (5/10 : ℚ) ≤ 1/2 := by norm_num
    exact le_trans (min_le_right _ _) h1
  · rw [hout', zipWith_get?_eq, hb, zipWith_get?_eq, hx, hy]
    rfl
  · intro hxn hyn
    subst hxn
    subst hyn
    constructor
    · norm_num [adjCell, clipAdj, vegEffectCell, tmpEffectCell]
    · norm_num [adjCell, clipAdj, vegEffectCell, tmpEffectCell]

/-- C6 witness: the spec's own concrete scenario — base 4.8, vegetation
index 0.5, air temperature 10 — pushed through the theorem at row 0:
adjustment 0.38 = 19/50 (within bounds) and final prediction
4.8 + 0.38 = 5.18 = 259/50. -/
theorem c6_witness :
    apply_mvp_adjustment ⟨[some (48/10)], some [some (5/10)], some [some 10],
        none, none, none⟩
      = Except.ok ⟨[some (48/10)], none, [adjCell (some (5/10)) (some 10)],
          [some (48/10 + adjCell (some (5/10)) (some 10))]⟩ ∧
    -(1/2) ≤ adjCell (some (5/10)) (some 10) ∧
    adjCell (some (5/10)) (some 10) ≤ 1/2 ∧
    adjCell (some (5/10)) (some 10) = 19/50 ∧
    (48/10 : ℚ) + 19/50 = 259/50 := by
  obtain ⟨x, y, hx, hy, a, ha, hfor, hlo, hhi, hfin, hnull⟩ :=
    c6_adjustment_formula
      ⟨[some (48/10)], some [some (5/10)], some [some 10], none, none, none⟩
      [some (5/10)] [some 10]
      ⟨[some (48/10)], none, [adjCell (some (5/10)) (some 10)],
        [some (48/10 + adjCell (some (5/10)) (some 10))]⟩
      ⟨rfl, rfl⟩ rfl rfl rfl 0 (48/10) rfl
  have hxv : x = some ((5:ℚ)/10) := (Option.some.inj hx).symm
  have hyv : y = some (10 : ℚ) := (Option.some.inj hy).symm
  have hav : a = adjCell (some (5/10)) (some 10) := (Option.some.inj ha).symm
  refine ⟨rfl, ?_, ?_, ?_, by norm_num⟩
  · rw [← hav]
    exact hlo
  · rw [← hav]
    exact hhi
  · rw [← hav, hfor, hxv, hyv]
    norm_num

/-- C7.  Failing input for the claim: a one-row frame that has a base
prediction but LACKS both sensor columns entirely.  `out.get("ndvi_mean")`
is then `None`, `pd.to_numeric(None, errors="coerce")` is a bare float NaN,
and `.fillna(0)` on line 140 raises `AttributeError` — the function does
not return normally, contradicting "no error is ever raised". -/
theorem c7_raises_on_absent_sensor_columns :
    apply_mvp_adjustment ⟨[some (48/10)], none, none, none, none, none⟩
      = Except.error "AttributeError: nan has no attribute fillna" := rfl

/-- C10 (Claim C10).  When the returned frame exists (both sensor columns
present): if `ndvi_range` is absent while `ndvi_max` and `ndvi_min` are both
present, the output gains an `ndvi_range` column equal to the NaN-propagating
difference of the coerced bounds; if `ndvi_range` was already present it is
passed through unchanged; and if it is absent with either bound missing, no
such column is created. -/
theorem c10_ndvi_range_derived (f : AdjFrame) (out : AdjOut)
    (hout : apply_mvp_adjustment f = Except.ok out) :
    (∀ mx mn, f.ndviRange = none → f.ndviMax = some mx → f.ndviMin = some mn →
        out.ndviRange = some (List.zipWith rangeCell mx mn)) ∧
    (∀ r0, f.ndviRange = some r0 → out.ndviRange = some r0) ∧
    (f.ndviRange = none → (f.ndviMax = none ∨ f.ndviMin = none) → out.ndviRange = none) := by
  rcases hnd : f.ndviMean with _ | nd
  · rw [apply_mvp_adjustment, hnd] at hout
    exact absurd hout (by simp)
  rcases hta : f.airTemp with _ | ta
  · rw [apply_mvp_adjustment, hnd, hta] at hout
    exact absurd hout (by simp)
  have hout' : out.ndviRange =
      (match f.ndviRange, f.ndviMax, f.ndviMin with
       | some r, _, _ => some r
       | none, some mx, some mn => some (List.zipWith rangeCell mx mn)
       | none, _, _ => none) := by
    rw [apply_mvp_adjustment, hnd, hta] at hout
    rw [← Except.ok.inj hout]
  refine ⟨?_, ?_, ?_⟩
  · intro mx mn hr hmx hmn
    rw [hout', hr, hmx, hmn]
  · intro r0 hr
    rw [hout', hr]
  · intro hr hbound
    rcases hbound with hmx | hmn
    · rw [hout', hr, hmx]
    · rcases hmx : f.ndviMax with _ | mx
      · rw [hout', hr, hmx]
      · rw [hout', hr, hmx, hmn]

/-- C10 witness: a frame with `ndvi_range` absent and both bounds present
gains the derived column; with bounds 0.8 and 0.3 the range cell is 0.5. -/
theorem c10_witness :
    apply_mvp_adjustment ⟨[some 1], some [none], some [none], none,
        some [some (8/10)], some [some (3/10)]⟩
      = Except.ok ⟨[some 1], some [some (8/10 - 3/10)], [adjCell none none],
          [some (1 + adjCell none none)]⟩ ∧
    (⟨[some 1], some [some (8/10 - 3/10)], [adjCell none none],
        [some (1 + adjCell none none)]⟩ : AdjOut).ndviRange = some [some (1/2)] := by
  constructor
  · rfl
  · have h := (c10_ndvi_range_derived
      ⟨[some 1], some [none], some [none], none, some [some (8/10)], some [some (3/10)]⟩
      ⟨[some 1], some [some (8/10 - 3/10)], [adjCell none none],
        [some (1 + adjCell none none)]⟩ rfl).1
      [some (8/10)] [some (3/10)] rfl rfl rfl
    rw [h]
    norm_num [rangeCell]

end NdviApp
